import Mathlib

set_option maxHeartbeats 1000000

/-!
Verification development for the job-orchestration backend (`src/unnamed/part_000`).

The JavaScript source is shallowly embedded: pure helpers become Lean
functions over `String` / `List Char`, the Firestore/in-memory job store
becomes explicit state passing over association lists, and the poll-tick
body of `monitorShopifyCliProcess` becomes a step function on an explicit
loop state.  Machine-level details that the claims do not touch (real
timers, the HTTP layer, Firebase wire formats) are represented by the
observation records fed to the step functions.
-/

/-! ## JavaScript string primitives

All definitions mirror the ECMAScript operations used by the source:
`String.prototype.includes`, `trim`, `toLowerCase`, `split('\n')`,
`substring(0, 50)` and the regex whitespace class `\s`.
-/

/-- The ECMAScript whitespace class: the characters matched by the regex
class `\s`, which is also the set stripped by `String.prototype.trim`. -/
def jsWhitespaceChar (c : Char) : Bool :=
  c = ' ' || c = '\t' || c = '\n' || c = '\r' || c = '\x0b' || c = '\x0c' ||
  c = '\u00A0' || c = '\u1680' || ('\u2000' ≤ c && c ≤ '\u200A') ||
  c = '\u2028' || c = '\u2029' || c = '\u202F' || c = '\u205F' ||
  c = '\u3000' || c = '\uFEFF'

/-- `String.prototype.trim` on a character list. -/
def jsTrimList (s : List Char) : List Char :=
  ((s.dropWhile jsWhitespaceChar).reverse.dropWhile jsWhitespaceChar).reverse

/-- JavaScript `s.trim()`. -/
def jsTrim (s : String) : String := String.mk (jsTrimList s.toList)

/-- `listStartsWith needle hay` is true when `needle` is an initial
segment of `hay` (character-exact). -/
def listStartsWith : List Char → List Char → Bool
  | [], _ => true
  | _ :: _, [] => false
  | a :: as, b :: bs => a = b && listStartsWith as bs

/-- `listContains needle hay`: `needle` occurs contiguously in `hay`. -/
def listContains (needle : List Char) : List Char → Bool
  | [] => needle.isEmpty
  | c :: rest => listStartsWith needle (c :: rest) || listContains needle rest

/-- JavaScript `hay.includes(needle)`. -/
def jsIncludes (hay needle : String) : Bool := listContains needle.toList hay.toList

/-- ASCII lower-casing of a character list (the source only ever
lower-cases ASCII CLI output, where `Char.toLower` agrees with the
JavaScript `toLowerCase`). -/
def lowerList (s : List Char) : List Char := s.map Char.toLower

/-- JavaScript `s.toLowerCase()` restricted to ASCII content. -/
def jsToLowerCase (s : String) : String := String.mk (lowerList s.toList)

/-- Case-insensitive `listStartsWith`. -/
def ciStartsWith : List Char → List Char → Bool
  | [], _ => true
  | _ :: _, [] => false
  | a :: as, b :: bs => a.toLower = b.toLower && ciStartsWith as bs

/-- JavaScript `s.split('\n')` on a character list. -/
def splitNlList : List Char → List (List Char)
  | [] => [[]]
  | c :: rest =>
    let tail := splitNlList rest
    if c = '\n' then [] :: tail
    else
      match tail with
      | [] => [[c]]
      | t :: ts => (c :: t) :: ts

/-- JavaScript `s.split('\n')`. -/
def jsSplitNl (s : String) : List String := (splitNlList s.toList).map String.mk

/-- JavaScript `s.substring(0, 50)`. -/
def jsTake50 (s : String) : String := String.mk (s.toList.take 50)

/-- JavaScript `arr.join(' ')`. -/
def jsJoinSpace : List String → String
  | [] => ""
  | [x] => x
  | x :: rest => x ++ " " ++ jsJoinSpace rest

/-! ## OutputSignalExtractor

`extractAuthUrl` and `determineStage` from `monitorShopifyCliProcess`
(`src/unnamed/part_000` lines 1057–1094).  The five phrase patterns all
have the shape `/phrase\s*(https:\/\/partners\.shopify\.com\/[^\s\n]+)/i`;
the sixth is `/(https:\/\/partners\.shopify\.com\/[^\s\n]*auth[^\s\n]*)/i`.
`output.match(pattern)` is modelled by a left-to-right scan returning the
leftmost match, preserving the original casing of the captured text.
-/

/-- The literal URL head shared by every authentication pattern. -/
def urlHeadChars : List Char := "https://partners.shopify.com/".toList

/-- Matches `\s*(https:\/\/partners\.shopify\.com\/[^\s\n]+)` against
`rest` anchored at its start, returning the captured URL. -/
def matchUrlAfterPhrase (rest : List Char) : Option (List Char) :=
  let rest1 := rest.dropWhile jsWhitespaceChar
  if ciStartsWith urlHeadChars rest1 then
    let tail := (rest1.drop urlHeadChars.length).takeWhile (fun c => !jsWhitespaceChar c)
    if tail.isEmpty then none
    else some (rest1.take urlHeadChars.length ++ tail)
  else none

/-- Leftmost match of `/phrase\s*(URL)/i` over the text. -/
def scanPhraseUrl (phrase : List Char) : List Char → Option (List Char)
  | [] => none
  | c :: rest =>
    if ciStartsWith phrase (c :: rest) then
      match matchUrlAfterPhrase ((c :: rest).drop phrase.length) with
      | some u => some u
      | none => scanPhraseUrl phrase rest
    else scanPhraseUrl phrase rest

/-- Leftmost match of the bare pattern
`/(https:\/\/partners\.shopify\.com\/[^\s\n]*auth[^\s\n]*)/i`. -/
def scanBareAuthUrl : List Char → Option (List Char)
  | [] => none
  | c :: rest =>
    if ciStartsWith urlHeadChars (c :: rest) then
      let tail := ((c :: rest).drop urlHeadChars.length).takeWhile (fun c2 => !jsWhitespaceChar c2)
      if listContains (lowerList "auth".toList) (lowerList tail) then
        some ((c :: rest).take urlHeadChars.length ++ tail)
      else scanBareAuthUrl rest
    else scanBareAuthUrl rest

/-- The five phrase patterns of `extractAuthUrl`, in source order. -/
def authUrlPhrases : List (List Char) :=
  [ "To create your app, visit:".toList,
    "Please visit the following URL to authenticate:".toList,
    "Visit this URL to authenticate:".toList,
    "Authentication URL:".toList,
    "Open this link:".toList ]

/-- `extractAuthUrl` (lines 1057–1076): try the ordered pattern list,
return the first captured URL. -/
def extractAuthUrl (output : String) : Option String :=
  let cs := output.toList
  let fromPhrases := authUrlPhrases.foldl
    (fun acc p =>
      match acc with
      | some u => some u
      | none => scanPhraseUrl p cs) none
  match fromPhrases with
  | some u => some (String.mk u)
  | none => (scanBareAuthUrl cs).map String.mk

/-- `determineStage` (lines 1079–1094): ordered keyword-group
classification of the lower-cased output. -/
def determineStage (output : String) : String :=
  let lowerOutput := jsToLowerCase output
  if jsIncludes lowerOutput "creating app" || jsIncludes lowerOutput "setting up" ||
      jsIncludes lowerOutput "initializing" then "creating"
  else if jsIncludes lowerOutput "authentication" || jsIncludes lowerOutput "auth" ||
      jsIncludes lowerOutput "visit" || jsIncludes lowerOutput "partners.shopify.com" then
    "waiting_auth"
  else if jsIncludes lowerOutput "authenticating" || jsIncludes lowerOutput "completing" then
    "authenticating"
  else if jsIncludes lowerOutput "finalizing" || jsIncludes lowerOutput "finishing" ||
      jsIncludes lowerOutput "installing dependencies" then "finalizing"
  else if jsIncludes lowerOutput "success" || jsIncludes lowerOutput "completed" ||
      jsIncludes lowerOutput "done" then "completed"
  else "creating"

/-! ## Generic string-keyed maps

JavaScript plain objects and `Map`s used by the source (`inMemoryJobs`,
the `files` object of `extractCodeBlocks`) are modelled as association
lists whose `mapSet` replaces in place, preserving key order — the
semantics of `obj[k] = v` / `Map.prototype.set`.
-/

/-- Lookup in a string-keyed association list. -/
def mapFind {α : Type} : List (String × α) → String → Option α
  | [], _ => none
  | (k', v) :: rest, k => if k' = k then some v else mapFind rest k

/-- `obj[k] = v`: replace the existing binding in place, else append. -/
def mapSet {α : Type} : List (String × α) → String → α → List (String × α)
  | [], k, v => [(k, v)]
  | (k', v') :: rest, k, v =>
    if k' = k then (k, v) :: rest else (k', v') :: mapSet rest k v

/-- `Map.prototype.has` / key membership. -/
def mapHas {α : Type} (m : List (String × α)) (k : String) : Bool :=
  (mapFind m k).isSome

/-! ## JobRecord and JobStore

`createAppCreationJob`, `updateAppCreationJob`, `getAppCreationJob`
(`src/unnamed/part_000` lines 294–440).  The durable Firestore backend
and the `inMemoryJobs` fallback map are both explicit; `StoreEnv` says
whether Firestore is configured (`getFirestore()` non-null) and whether
its operations currently reject.  Server timestamps are modelled by the
`now` string passed to each call, matching the normalization that reads
perform on the way out.
-/

/-- Payload returned by `saveShopifyAppMetadata` (lines 442–475). -/
structure AppMeta where
  appId : String
  userId : String
  name : String
  description : String
  template : String
  status : String
  cliPath : Option String
  projectPath : Option String
  authCompleted : Bool
deriving Repr, DecidableEq

/-- The job record created by `createAppCreationJob` (lines 298–311). -/
structure JobRecord where
  jobId : String
  userId : String
  appName : String
  status : String
  stage : String
  createdAt : String
  updatedAt : String
  output : List String
  authUrl : Option String
  error : Option String
  sandboxId : Option String
  appData : Option AppMeta
deriving Repr, DecidableEq

/-- A partial record: the `updates` object passed to
`updateAppCreationJob`.  An outer `none` means the field is absent from
the object (so the spread keeps the old value); `some v` means the field
is present with value `v`. -/
structure JobUpdates where
  status : Option String := none
  stage : Option String := none
  output : Option (List String) := none
  authUrl : Option (Option String) := none
  error : Option (Option String) := none
  sandboxId : Option (Option String) := none
  appData : Option (Option AppMeta) := none
deriving Repr, DecidableEq

/-- The shallow merge `{ ...existingJob, ...updates, updatedAt: now }`
performed by `updateAppCreationJob` (lines 354–358). -/
def applyUpdates (r : JobRecord) (u : JobUpdates) (now : String) : JobRecord :=
  { r with
    status := u.status.getD r.status
    stage := u.stage.getD r.stage
    output := u.output.getD r.output
    authUrl := u.authUrl.getD r.authUrl
    error := u.error.getD r.error
    sandboxId := u.sandboxId.getD r.sandboxId
    appData := u.appData.getD r.appData
    updatedAt := now }

/-- Availability of the durable backend during a call. -/
structure StoreEnv where
  firestoreAvailable : Bool
  firestoreFails : Bool
deriving Repr, DecidableEq

/-- Both persistence backends. -/
structure StoreState where
  inMemoryJobs : List (String × JobRecord)
  firestoreJobs : List (String × JobRecord)
deriving Repr, DecidableEq

/-- The fresh `jobData` object of `createAppCreationJob` (lines 298–311). -/
def initialJobRecord (jobId userId appName now : String) : JobRecord :=
  { jobId := jobId, userId := userId, appName := appName,
    status := "running", stage := "initializing",
    createdAt := now, updatedAt := now, output := [],
    authUrl := none, error := none, sandboxId := none, appData := none }

/-- Result object `{ jobId, status: 'running' }` of a successful create. -/
structure CreateJobOk where
  jobId : String
  status : String
deriving Repr, DecidableEq

/-- `createAppCreationJob` (lines 294–344): prefer Firestore, fall back
to the in-memory map when Firestore is missing or its write rejects.
The outer catch rethrows, hence the `Except` result; no modelled path
reaches it because the fallback write cannot fail. -/
def createAppCreationJob (env : StoreEnv) (st : StoreState)
    (userId appName jobId now : String) : StoreState × Except String CreateJobOk :=
  let jobData := initialJobRecord jobId userId appName now
  if !env.firestoreAvailable then
    ({ st with inMemoryJobs := mapSet st.inMemoryJobs jobId jobData },
      .ok { jobId := jobId, status := "running" })
  else if env.firestoreFails then
    ({ st with inMemoryJobs := mapSet st.inMemoryJobs jobId jobData },
      .ok { jobId := jobId, status := "running" })
  else
    ({ st with firestoreJobs := mapSet st.firestoreJobs jobId jobData },
      .ok { jobId := jobId, status := "running" })

/-- `updateAppCreationJob` (lines 346–395).  If the job lives in the
in-memory map it is merged there; otherwise the Firestore `update` is
attempted (it rejects when the handle is null, the backend fails, or
the document is missing), whose failure falls back to the in-memory
map again (a no-op here) and is swallowed.  The outer catch logs and
returns, so the call never throws: the `Except` component is the
escaping-exception channel. -/
def updateAppCreationJob (env : StoreEnv) (st : StoreState) (jobId : String)
    (u : JobUpdates) (now : String) : StoreState × Except String Unit :=
  match mapFind st.inMemoryJobs jobId with
  | some existing =>
    ({ st with inMemoryJobs := mapSet st.inMemoryJobs jobId (applyUpdates existing u now) },
      .ok ())
  | none =>
    if env.firestoreAvailable && !env.firestoreFails && mapHas st.firestoreJobs jobId then
      match mapFind st.firestoreJobs jobId with
      | some existing =>
        ({ st with firestoreJobs := mapSet st.firestoreJobs jobId (applyUpdates existing u now) },
          .ok ())
      | none => (st, .ok ())
    else
      (st, .ok ())

/-- `getAppCreationJob` (lines 397–440): in-memory map first, then
Firestore (whose read failure or absence yields `null`, not an error). -/
def getAppCreationJob (env : StoreEnv) (st : StoreState) (jobId : String) :
    Option JobRecord :=
  match mapFind st.inMemoryJobs jobId with
  | some j => some j
  | none =>
    if !env.firestoreAvailable then none
    else if env.firestoreFails then none
    else mapFind st.firestoreJobs jobId

/-! ## JobOrchestrator HTTP surface

`POST /api/create-shopify-app` (lines 1334–1377) and
`GET /api/app-creation-status/:jobId` (lines 1380–1422).  Responses are
modelled by their status code and body fields; the fire-and-forget
launch of the background process is outside the validated path.
-/

/-- One character of the validation class `[a-zA-Z0-9\s\-]`. -/
def validAppNameChar (c : Char) : Bool :=
  ('a' ≤ c && c ≤ 'z') || ('A' ≤ c && c ≤ 'Z') || ('0' ≤ c && c ≤ '9') ||
    jsWhitespaceChar c || c = '-'

/-- `/^[a-zA-Z0-9\s\-]+$/.test(s)` (line 1347). -/
def testValidAppName (s : String) : Bool :=
  !s.toList.isEmpty && s.toList.all validAppNameChar

/-- Response of the create-app route. -/
inductive CreateAppResponse where
  | validationError (code : Nat) (error message : String)
  | started (jobId message estimatedTime : String)
deriving Repr, DecidableEq

/-- `POST /api/create-shopify-app` (lines 1334–1377): requires a
non-blank name, tests the pattern against the trimmed name, then
creates the job record with the trimmed name. -/
def createShopifyAppRoute (env : StoreEnv) (st : StoreState)
    (appNameBody : Option String) (userId jobId now : String) :
    StoreState × CreateAppResponse :=
  match appNameBody with
  | none =>
    (st, .validationError 400 "App name is required" "Please provide a valid app name")
  | some appName =>
    if appName = "" || jsTrim appName = "" then
      (st, .validationError 400 "App name is required" "Please provide a valid app name")
    else if !testValidAppName (jsTrim appName) then
      (st, .validationError 400 "Invalid app name"
        "App name can only contain letters, numbers, spaces, and dashes")
    else
      let created := createAppCreationJob env st userId (jsTrim appName) jobId now
      (created.1, .started jobId "Shopify app creation started" "5-15 minutes")

/-- Response of the status route. -/
inductive StatusResponse where
  | httpError (code : Nat) (error message : String)
  | okView (jobId status stage : String) (output : List String)
      (authUrl : Option String) (error : Option String)
      (appData : Option AppMeta) (createdAt updatedAt : String)
deriving Repr, DecidableEq

/-- `GET /api/app-creation-status/:jobId` (lines 1380–1422). -/
def appCreationStatusRoute (env : StoreEnv) (st : StoreState)
    (jobId userId : String) : StatusResponse :=
  match getAppCreationJob env st jobId with
  | none => .httpError 404 "Job not found" "The requested job does not exist"
  | some jobData =>
    if jobData.userId ≠ userId then
      .httpError 403 "Access denied" "You do not have access to this job"
    else
      .okView jobData.jobId jobData.status jobData.stage jobData.output
        jobData.authUrl jobData.error jobData.appData jobData.createdAt jobData.updatedAt

/-! ## SandboxProcessMonitor

The poll-tick body of `monitorShopifyCliProcess`
(`src/unnamed/part_000` lines 1047–1306).  One invocation of the
`setInterval` callback becomes `tick`; the 25-minute `setTimeout`
callback becomes `timeoutFire`.  A `TickObs` carries what the sandbox
commands of that tick returned; `LoopState` carries the closure
variables of the monitor plus the interval handle and the job's
`activeJobs` membership.
-/

/-- Results of the sandbox commands issued during one poll tick.  An
empty string models empty or missing stdout (falsy in the source);
`authCheck = none` models the foreground retry throwing (its dedicated
catch only logs). -/
structure TickObs where
  psStdout : String
  logStdout : String
  appDirStdout : String
  filesStdout : String
  authCheck : Option (String × String)
  storeEnv : StoreEnv
  metaAppId : String
deriving Repr, DecidableEq

/-- The monitor's closure variables (lines 1050–1054). -/
structure MonitorState where
  outputBuffer : List String
  authUrl : Option String
  isWaitingForAuth : Bool
  isProcessComplete : Bool
deriving Repr, DecidableEq

/-- Monitor state plus the poll-interval handle and the job's
membership in the `activeJobs` table. -/
structure LoopState where
  st : MonitorState
  intervalActive : Bool
  jobInTable : Bool
deriving Repr, DecidableEq

/-- Closure state at monitor start (line 1050). -/
def initialMonitorState (appName : String) : MonitorState :=
  { outputBuffer := ["E2B sandbox created successfully", "Initializing Shopify CLI...",
      "Running shopify app init \"" ++ appName ++ "\"..."],
    authUrl := none, isWaitingForAuth := false, isProcessComplete := false }

/-- Loop state right after `monitorShopifyCliProcess` installs its
interval, with the job registered in `activeJobs`. -/
def initialLoopState (appName : String) : LoopState :=
  { st := initialMonitorState appName, intervalActive := true, jobInTable := true }

/-- `saveShopifyAppMetadata` (lines 442–475): returns `undefined` when
Firestore is unconfigured, rethrows `'Failed to save app metadata'`
when the Firestore write rejects, and otherwise returns the metadata
payload.  Server timestamps are omitted from the modelled payload. -/
def saveShopifyAppMetadata (env : StoreEnv) (genAppId userId name : String)
    (cliPath projectPath : Option String) (authCompleted : Bool) :
    Except String (Option AppMeta) :=
  if !env.firestoreAvailable then .ok none
  else if env.firestoreFails then .error "Failed to save app metadata"
  else
    .ok (some
      { appId := genAppId, userId := userId, name := name,
        description := "Shopify app created with CLI: " ++ name,
        template := "typescript-react", status := "active",
        cliPath := cliPath, projectPath := projectPath,
        authCompleted := authCompleted })

/-- The `for` loop of lines 1126–1131: push the trimmed line when it is
non-blank and its first-50-character prefix is not contained in any
line already buffered. -/
def collectNewLines (buffer : List String) : List String → List String
  | [] => []
  | line :: rest =>
    let trimmedLine := jsTrim line
    if trimmedLine ≠ "" &&
        !(buffer.any (fun existing => jsIncludes existing (jsTake50 trimmedLine))) then
      trimmedLine :: collectNewLines buffer rest
    else collectNewLines buffer rest

/-- Lines 1122–1131: split the freshly read log text, keep lines whose
trim is non-blank (`allLines`), and collect the genuinely new ones. -/
def computeNewLines (buffer : List String) (logText : String) : List String :=
  collectNewLines buffer ((jsSplitNl logText).filter (fun line => jsTrim line ≠ ""))

/-- The signal-gathering first half of a poll tick (lines 1106–1196):
process liveness, log diffing, URL extraction and the filesystem
probe, yielding the values of the closure variables just before the
update decision. -/
structure TickSignals where
  isProcessRunning : Bool
  newLines1 : List String
  authUrl2 : Option String
  waiting2 : Bool
  complete1 : Bool
deriving Repr, DecidableEq

/-- Computes `TickSignals` from the tick's observations (lines 1106–1196). -/
def tickSignals (st : MonitorState) (obs : TickObs) : TickSignals :=
  let isProcessRunning := obs.psStdout ≠ "" && jsIncludes obs.psStdout "shopify"
  let logRead := obs.logStdout ≠ "" && jsTrim obs.logStdout ≠ ""
  let newLines0 := if logRead then computeNewLines st.outputBuffer obs.logStdout else []
  let foundLog :=
    if logRead && st.authUrl.isNone then extractAuthUrl obs.logStdout else none
  let (newLines1, authUrl1, waiting1) :=
    match foundLog with
    | some u => (newLines0 ++ ["🔗 Authentication required: " ++ u], some u, true)
    | none => (newLines0, st.authUrl, st.isWaitingForAuth)
  let appDirFound := obs.appDirStdout ≠ "" && !jsIncludes obs.appDirStdout "no app dir yet"
  let complete1 :=
    appDirFound && obs.filesStdout ≠ "" &&
      jsIncludes obs.filesStdout "package.json" && jsIncludes obs.filesStdout "app"
  let (authUrl2, waiting2) :=
    if !appDirFound && !isProcessRunning && authUrl1.isNone then
      match obs.authCheck with
      | some (so, se) =>
        if so ≠ "" || se ≠ "" then
          let fullOutput := so ++ se
          match extractAuthUrl fullOutput with
          | some u => (some u, true)
          | none =>
            if jsIncludes fullOutput "Authentication" || jsIncludes fullOutput "login" ||
                jsIncludes fullOutput "auth" then
              (some "https://partners.shopify.com/", true)
            else (authUrl1, waiting1)
        else (authUrl1, waiting1)
      | none => (authUrl1, waiting1)
    else (authUrl1, waiting1)
  { isProcessRunning := isProcessRunning, newLines1 := newLines1,
    authUrl2 := authUrl2, waiting2 := waiting2, complete1 := complete1 }

/-- The update-decision second half of a poll tick (lines 1202–1274). -/
def tickFinish (userId appName : String) (obs : TickObs) (l : LoopState)
    (sig : TickSignals) : LoopState × Option JobUpdates :=
  let buffer1 := l.st.outputBuffer ++ sig.newLines1
  if sig.complete1 then
    let buffer2 := buffer1 ++ ["✅ Shopify app created successfully!",
      "📁 Project files have been generated", "🎉 Setup complete!"]
    let saved := saveShopifyAppMetadata obs.storeEnv obs.metaAppId userId appName
      (some ("/tmp/" ++ appName)) (some ("/tmp/" ++ appName))
      (!sig.waiting2 || sig.authUrl2.isSome)
    let upd : JobUpdates :=
      match saved with
      | .ok appData =>
        { stage := some "completed", status := some "completed",
          appData := some appData, output := some buffer2 }
      | .error _ => { output := some buffer2 }
    let st2 : MonitorState :=
      { outputBuffer := buffer2, authUrl := sig.authUrl2,
        isWaitingForAuth := sig.waiting2, isProcessComplete := true }
    ({ st := st2, intervalActive := false, jobInTable := false }, some upd)
  else if sig.authUrl2.isSome && sig.waiting2 then
    let st2 : MonitorState :=
      { outputBuffer := buffer1, authUrl := sig.authUrl2,
        isWaitingForAuth := sig.waiting2, isProcessComplete := false }
    let upd : JobUpdates :=
      { output := some buffer1, authUrl := some sig.authUrl2,
        stage := some "waiting_auth" }
    ({ st := st2, intervalActive := l.intervalActive, jobInTable := l.jobInTable }, some upd)
  else if !sig.isProcessRunning && buffer1.length > 3 then
    let lastOutput := (buffer1.getLast?).getD ""
    if jsIncludes lastOutput "success" || jsIncludes lastOutput "complete" then
      let st2 : MonitorState :=
        { outputBuffer := buffer1, authUrl := sig.authUrl2,
          isWaitingForAuth := sig.waiting2, isProcessComplete := true }
      let upd : JobUpdates := { output := some buffer1, stage := some "completed" }
      ({ st := st2, intervalActive := l.intervalActive, jobInTable := l.jobInTable }, some upd)
    else
      let buffer2 := buffer1 ++ ["⏸️  CLI process paused - may require authentication"]
      let authUrl3 :=
        if sig.authUrl2.isNone then some "https://partners.shopify.com/" else sig.authUrl2
      let updAuth : Option (Option String) :=
        if sig.authUrl2.isNone then some authUrl3 else none
      let st2 : MonitorState :=
        { outputBuffer := buffer2, authUrl := authUrl3,
          isWaitingForAuth := sig.waiting2, isProcessComplete := false }
      let upd : JobUpdates :=
        { output := some buffer2, stage := some "waiting_auth",
          authUrl := updAuth }
      ({ st := st2, intervalActive := l.intervalActive, jobInTable := l.jobInTable }, some upd)
  else
    let st2 : MonitorState :=
      { outputBuffer := buffer1, authUrl := sig.authUrl2,
        isWaitingForAuth := sig.waiting2, isProcessComplete := false }
    let upd : JobUpdates :=
      { output := some buffer1,
        stage := some (determineStage (jsJoinSpace buffer1)) }
    ({ st := st2, intervalActive := l.intervalActive, jobInTable := l.jobInTable }, some upd)

/-- One invocation of the poll-interval callback (lines 1097–1279):
nothing runs once the interval is cleared; a missing `activeJobs` entry
or a completed process clears the interval and returns; otherwise the
gathered signals drive the update decision. -/
def tick (userId appName : String) (obs : TickObs) (l : LoopState) :
    LoopState × Option JobUpdates :=
  if !l.intervalActive then (l, none)
  else if !l.jobInTable || l.st.isProcessComplete then
    ({ l with intervalActive := false }, none)
  else tickFinish userId appName obs l (tickSignals l.st obs)

/-- Poll interval in milliseconds (line 1279). -/
def pollIntervalMillis : Nat := 8000

/-- Ceiling timeout in milliseconds (line 1293). -/
def ceilingMillis : Nat := 1500000

/-- Error text written by the ceiling timeout (line 1289). -/
def timeoutMessage : String :=
  "Process timed out after 25 minutes. This may be due to network issues or authentication requirements."

/-- The 25-minute `setTimeout` callback (lines 1282–1293): always
clears the poll interval; if the job is still active and incomplete it
writes the failure and drops the job from `activeJobs`. -/
def timeoutFire (l : LoopState) : LoopState × Option JobUpdates :=
  let l1 : LoopState := { l with intervalActive := false }
  if l1.jobInTable && !l1.st.isProcessComplete then
    let upd : JobUpdates :=
      { status := some "failed", stage := some "error",
        error := some (some timeoutMessage) }
    ({ l1 with jobInTable := false }, some upd)
  else (l1, none)

/-- A sequence of poll ticks, collecting every update call they emit in
order. -/
def runTicks (userId appName : String) : List TickObs → LoopState →
    LoopState × List JobUpdates
  | [], l => (l, [])
  | obs :: rest, l =>
    let r := tick userId appName obs l
    let next := runTicks userId appName rest r.1
    (next.1, r.2.toList ++ next.2)

/-! ## CodeGenerationPipeline: saveProject

`generateProjectId` (lines 74–76) and `saveProject` (lines 79–132).
`Date.now().toString(36)` is modelled as base-36 rendering of a natural
number; `Math.random().toString(36).substr(2, 5)` is an arbitrary (and
possibly empty) suffix supplied by the environment.  Each Firebase
Storage `file.save` either resolves or rejects according to the
environment's per-path oracle; the outer catch converts any rejection
into a fresh-id result, so `saveProject` itself is total.
-/

/-- A base-36 digit, lower-case as in `Number.prototype.toString`. -/
def jsDigit36 (d : Nat) : Char :=
  if d < 10 then Char.ofNat (48 + d) else Char.ofNat (87 + d)

/-- `n.toString(36)` for a natural number. -/
def jsToString36 (n : Nat) : List Char :=
  if h : n < 36 then [jsDigit36 n]
  else
    have : n / 36 < n := Nat.div_lt_self (by omega) (by omega)
    jsToString36 (n / 36) ++ [jsDigit36 (n % 36)]

/-- `generateProjectId` (lines 74–76): timestamp in base 36 followed by
a random suffix. -/
def generateProjectId (now : Nat) (randTail : String) : String :=
  String.mk (jsToString36 now) ++ randTail

/-- JavaScript `v || d` for optional strings (empty string is falsy). -/
def jsOrString (v : Option String) (d : String) : String :=
  match v with
  | some s => if s = "" then d else s
  | none => d

/-- JavaScript `v || null` for optional strings. -/
def jsOrNull (v : Option String) : Option String :=
  match v with
  | some s => if s = "" then none else some s
  | none => none

/-- The argument object of `saveProject`; `files = none` models the
`files` property being absent (`Object.entries(undefined)` throws). -/
structure ProjectData where
  name : Option String := none
  description : Option String := none
  prompt : Option String := none
  previewUrl : Option String := none
  sandboxId : Option String := none
  files : Option (List (String × String)) := none

/-- The metadata object persisted (or returned) by `saveProject`.  An
outer `none` marks a key that is absent from the object, so the failure
paths' minimal `{ id: projectId }` is `{ id := pid }` with every other
field `none`. -/
structure ProjectMetadata where
  id : String
  name : Option String := none
  description : Option String := none
  prompt : Option String := none
  createdAt : Option String := none
  previewUrl : Option (Option String) := none
  sandboxId : Option (Option String) := none
deriving Repr, DecidableEq

/-- Return object of `saveProject`. -/
structure SaveResult where
  projectId : String
  metadata : ProjectMetadata
deriving Repr, DecidableEq

/-- Environment of one `saveProject` call: bucket availability, the
per-path write oracle, the two potential `generateProjectId` inputs
(normal path and catch path) and the ISO timestamp. -/
structure SaveEnv where
  bucketConfigured : Bool
  writeOk : String → Bool
  now1 : Nat
  rand1 : String
  now2 : Nat
  rand2 : String
  nowIso : String

/-- The per-file write loop (lines 111–121); the error value carries
the storage paths persisted before the rejection. -/
def writeProjectFiles (env : SaveEnv) (projectPath : String) :
    List (String × String) → List String → Except (List String) (List String)
  | [], persisted => .ok persisted
  | (filename, _) :: rest, persisted =>
    let p := projectPath ++ "/" ++ filename
    if env.writeOk p then writeProjectFiles env projectPath rest (persisted ++ [p])
    else .error persisted

/-- The `try` body of `saveProject` (lines 80–125): an `Except` error
models a thrown/rejected step, carrying the already-persisted paths. -/
def saveProjectTry (env : SaveEnv) (userId : String) (pd : ProjectData) :
    Except (List String) (SaveResult × List String) :=
  if !env.bucketConfigured then
    let projectId := generateProjectId env.now1 env.rand1
    .ok ({ projectId := projectId, metadata := { id := projectId } }, [])
  else
    let projectId := generateProjectId env.now1 env.rand1
    let projectPath := "users/" ++ userId ++ "/projects/" ++ projectId
    let metadata : ProjectMetadata :=
      { id := projectId,
        name := some (jsOrString pd.name ("Project " ++ projectId)),
        description := some (jsOrString pd.description ""),
        prompt := some (jsOrString pd.prompt ""),
        createdAt := some env.nowIso,
        previewUrl := some (jsOrNull pd.previewUrl),
        sandboxId := some (jsOrNull pd.sandboxId) }
    let metaPath := projectPath ++ "/project.json"
    if !env.writeOk metaPath then .error []
    else
      match pd.files with
      | none => .error [metaPath]
      | some files =>
        match writeProjectFiles env projectPath files [metaPath] with
        | .ok persisted => .ok ({ projectId := projectId, metadata := metadata }, persisted)
        | .error persisted => .error persisted

/-- `saveProject` (lines 79–132): the catch returns a fresh project id
with minimal metadata, so the function is total — no exception escapes.
The second component is the set of storage paths actually persisted. -/
def saveProject (env : SaveEnv) (userId : String) (pd : ProjectData) :
    SaveResult × List String :=
  match saveProjectTry env userId pd with
  | .ok r => r
  | .error persisted =>
    let projectId := generateProjectId env.now2 env.rand2
    ({ projectId := projectId, metadata := { id := projectId } }, persisted)

/-! ## extractCodeBlocks

`extractCodeBlocks` (`src/unnamed/part_000` lines 939–969).  The regex
`exec` loop is modelled by the list of its matches: each `CodeBlock`
carries the optional filename-comment capture (`match[1]`) and the body
capture (`match[2]`).  The `files` plain object is an association list
with in-place replacement (`mapSet`).
-/

/-- One fenced-block match of the code-block regex. -/
structure CodeBlock where
  nameComment : Option String
  body : String
deriving Repr, DecidableEq

/-- The content-sniffing fallback chain (lines 951–963), applied to the
trimmed content, with `keyCount = Object.keys(files).length`. -/
def inferFilename (content : String) (keyCount : Nat) : String :=
  if jsIncludes content "const express = require" || jsIncludes content "app.listen" then
    "server.js"
  else if jsIncludes content "\"name\":" && jsIncludes content "\"dependencies\"" then
    "package.json"
  else if jsIncludes content "<!DOCTYPE html>" || jsIncludes content "<html" then
    "index.html"
  else if jsIncludes content "body \x7b" || jsIncludes content "." then
    "styles.css"
  else
    "file_" ++ toString keyCount ++ ".js"

/-- The filename a block gets (lines 947–963): the trimmed comment when
present and non-blank, else the sniffed or fallback name. -/
def blockFilename (files : List (String × String)) (b : CodeBlock) : String :=
  let explicitName :=
    match b.nameComment with
    | some f => jsTrim f
    | none => ""
  if explicitName ≠ "" then explicitName
  else inferFilename (jsTrim b.body) files.length

/-- `extractCodeBlocks` (lines 939–969) over the match list. -/
def extractCodeBlocks (blocks : List CodeBlock) : List (String × String) :=
  blocks.foldl (fun files b => mapSet files (blockFilename files b) (jsTrim b.body)) []

/-- The `(filename, content)` pairs in assignment order, starting from
the object state `files` — the trace of the loop's assignments. -/
def assignedPairsAux (files : List (String × String)) :
    List CodeBlock → List (String × String)
  | [] => []
  | b :: rest =>
    let n := blockFilename files b
    (n, jsTrim b.body) :: assignedPairsAux (mapSet files n (jsTrim b.body)) rest

/-- Assignment trace of the whole loop. -/
def assignedPairs (blocks : List CodeBlock) : List (String × String) :=
  assignedPairsAux [] blocks

/-! ## Spec-side definitions and concrete instances

`specAllowListChar` is the one definition taken from the claim text
rather than the source: the allow-list as the spec words it (letters,
digits, spaces, dashes — `[A-Za-z0-9 -]`), to compare against the
code's `/^[a-zA-Z0-9\\s\\-]+$/`.  The remaining definitions are concrete
records used by witnesses and counterexamples.
-/

/-- The claim's allow-list character class `[A-Za-z0-9 -]`: letters,
digits, the space character, and dashes (spec wording). -/
def specAllowListChar (c : Char) : Bool :=
  ('A' ≤ c && c ≤ 'Z') || ('a' ≤ c && c ≤ 'z') || ('0' ≤ c && c ≤ '9') ||
    c = ' ' || c = '-'

/-- The update object written by the ceiling timeout (lines 1286–1290). -/
def ceilingFailureUpdate : JobUpdates :=
  { status := some "failed", stage := some "error", error := some (some timeoutMessage) }

/-- The value of the last pair in the list carrying the given key, if
any — the value `obj[name]` ends up with after a sequence of
assignments. -/
def lastValueFor (name : String) : List (String × String) → Option String
  | [] => none
  | (k, v) :: rest =>
    match lastValueFor name rest with
    | some r => some r
    | none => if k = name then some v else none

/-- Environment with no Firestore configured: everything runs on the
in-memory fallback. -/
def memOnlyEnv : StoreEnv := { firestoreAvailable := false, firestoreFails := false }

/-- Empty job stores. -/
def emptyStore : StoreState := { inMemoryJobs := [], firestoreJobs := [] }

/-- A store holding one job owned by `alice`. -/
def ownedJobStore : StoreState :=
  { inMemoryJobs := [("job_1", initialJobRecord "job_1" "alice" "Demo App" "t0")],
    firestoreJobs := [] }

/-- A tick whose sandbox commands all return empty output. -/
def quietObs : TickObs :=
  { psStdout := "", logStdout := "", appDirStdout := "", filesStdout := "",
    authCheck := none, storeEnv := memOnlyEnv, metaAppId := "m1" }

/-- A tick whose filesystem probe finds the project directory with a
package manifest and an `app` entry. -/
def markerObs : TickObs :=
  { quietObs with appDirStdout := "total 1", filesStdout := "package.json app" }

/-- Same probe result, but the Firestore metadata write rejects. -/
def markerObsSaveFails : TickObs :=
  { markerObs with storeEnv := { firestoreAvailable := true, firestoreFails := true } }

/-- A running monitor that has already discovered an auth URL. -/
def authSetLoopState : MonitorState :=
  { outputBuffer := ["a", "b", "c", "d"],
    authUrl := some "https://partners.shopify.com/xyz",
    isWaitingForAuth := true, isProcessComplete := false }

/-- A running monitor loop that has already discovered an auth URL. -/
def authSetLoop : LoopState :=
  { st := authSetLoopState, intervalActive := true, jobInTable := true }

/-- A sample update object. -/
def demoUpdates : JobUpdates := { stage := some "creating", sandboxId := some (some "sb_1") }

/-- `saveProject` environment with no storage bucket configured. -/
def noBucketEnv : SaveEnv :=
  { bucketConfigured := false, writeOk := fun _ => true, now1 := 1700000000000,
    rand1 := "ab12c", now2 := 3, rand2 := "zz", nowIso := "2026-01-01T00:00:00.000Z" }

/-- `saveProject` environment where every storage write rejects. -/
def failingBucketEnv : SaveEnv :=
  { noBucketEnv with bucketConfigured := true, writeOk := fun _ => false }

/-- Sample project payload. -/
def demoProjectData : ProjectData :=
  { name := some "Demo", files := some [("server.js", "x")] }

/-! ## Helper lemmas -/

theorem mapFind_mapSet {α : Type} (m : List (String × α)) (k k' : String) (v : α) :
    mapFind (mapSet m k v) k' = if k' = k then some v else mapFind m k' := by
  induction m with
  | nil =>
    rcases eq_or_ne k' k with h | h
    · subst h; simp [mapSet, mapFind]
    · simp [mapSet, mapFind, h, Ne.symm h]
  | cons hd tl ih =>
    obtain ⟨hk, hv⟩ := hd
    rcases eq_or_ne hk k with h1 | h1
    · subst h1
      rcases eq_or_ne k' hk with h2 | h2
      · subst h2; simp [mapSet, mapFind]
      · simp [mapSet, mapFind, h2, Ne.symm h2]
    · rcases eq_or_ne hk k' with h2 | h2
      · subst h2
        simp [mapSet, mapFind, h1, Ne.symm h1]
      · simp [mapSet, mapFind, h1, h2, ih]

theorem computeNewLines_eq (B : List String) (log : String) :
    computeNewLines B log = ((jsSplitNl log).map jsTrim).filter
      (fun t => t ≠ "" && !(B.any (fun e => jsIncludes e (jsTake50 t)))) := by
  unfold computeNewLines
  generalize jsSplitNl log = ls
  induction ls with
  | nil => rfl
  | cons hd tl ih =>
    by_cases h1 : jsTrim hd = ""
    · rw [List.filter_cons_of_neg (by simp [h1]), List.map_cons,
        List.filter_cons_of_neg (by simp [h1])]
      exact ih
    · rw [List.filter_cons_of_pos (by simp [h1]), List.map_cons]
      by_cases h2 : (B.any fun e => jsIncludes e (jsTake50 (jsTrim hd))) = true
      · rw [List.filter_cons_of_neg (by simp [h2])]
        simp only [collectNewLines, h2]
        rw [if_neg (by simp [h2])]
        exact ih
      · rw [List.filter_cons_of_pos (by simp [h1, h2])]
        simp only [collectNewLines]
        rw [if_pos (by simp [h1, h2])]
        exact congrArg _ ih

theorem tickSignals_authUrl_stable (st : MonitorState) (obs : TickObs) (u : String)
    (h : st.authUrl = some u) : (tickSignals st obs).authUrl2 = some u := by
  unfold tickSignals
  simp only [h, Option.isNone_some, Bool.and_false, Bool.false_eq_true, if_false]

theorem tickFinish_authUrl (userId appName : String) (obs : TickObs) (l : LoopState)
    (sig : TickSignals) (u : String) (h : sig.authUrl2 = some u) :
    ((tickFinish userId appName obs l sig).1).st.authUrl = some u := by
  unfold tickFinish
  dsimp only
  repeat' split
  all_goals simp_all

theorem tickFinish_upd_authUrl (userId appName : String) (obs : TickObs) (l : LoopState)
    (sig : TickSignals) (u : String) (h : sig.authUrl2 = some u) :
    ∀ upd, (tickFinish userId appName obs l sig).2 = some upd →
      upd.authUrl = none ∨ upd.authUrl = some (some u) := by
  intro upd hu
  unfold tickFinish at hu
  dsimp only at hu
  repeat' (split at hu)
  all_goals
    injection hu with hu2
  all_goals
    subst hu2
  all_goals
    first
      | exact Or.inl rfl
      | exact Or.inr (by rw [h])
      | (left; simp_all)

theorem tickFinish_buffer (userId appName : String) (obs : TickObs) (l : LoopState)
    (sig : TickSignals) :
    l.st.outputBuffer <+: ((tickFinish userId appName obs l sig).1).st.outputBuffer := by
  unfold tickFinish
  dsimp only
  repeat' split
  all_goals
    first
      | exact List.prefix_append _ _
      | (rw [List.append_assoc]; exact List.prefix_append _ _)

theorem tickFinish_jobInTable (userId appName : String) (obs : TickObs) (l : LoopState)
    (sig : TickSignals) :
    (tickFinish userId appName obs l sig).1.jobInTable = false →
      l.jobInTable = false ∨
        (tickFinish userId appName obs l sig).1.st.isProcessComplete = true := by
  unfold tickFinish
  dsimp only
  repeat' split
  all_goals (intro hf; first | (right; rfl) | (left; exact hf))

theorem tick_authUrl_stable (userId appName : String) (obs : TickObs) (l : LoopState)
    (u : String) (h : l.st.authUrl = some u) :
    ((tick userId appName obs l).1).st.authUrl = some u := by
  unfold tick
  split
  · exact h
  · split
    · exact h
    · exact tickFinish_authUrl userId appName obs l _ u
        (tickSignals_authUrl_stable l.st obs u h)

theorem tick_upd_authUrl (userId appName : String) (obs : TickObs) (l : LoopState)
    (u : String) (h : l.st.authUrl = some u) :
    ∀ upd, (tick userId appName obs l).2 = some upd →
      upd.authUrl = none ∨ upd.authUrl = some (some u) := by
  intro upd hu
  unfold tick at hu
  split at hu
  · injection hu
  · split at hu
    · injection hu
    · exact tickFinish_upd_authUrl userId appName obs l _ u
        (tickSignals_authUrl_stable l.st obs u h) upd hu

theorem tick_buffer_extends (userId appName : String) (obs : TickObs) (l : LoopState) :
    l.st.outputBuffer <+: ((tick userId appName obs l).1).st.outputBuffer := by
  unfold tick
  split
  · exact List.prefix_rfl
  · split
    · exact List.prefix_rfl
    · exact tickFinish_buffer userId appName obs l _

theorem tick_jobInTable (userId appName : String) (obs : TickObs) (l : LoopState)
    (h : l.jobInTable = false → l.st.isProcessComplete = true) :
    (tick userId appName obs l).1.jobInTable = false →
      (tick userId appName obs l).1.st.isProcessComplete = true := by
  unfold tick
  split
  · exact h
  · split
    · exact h
    · intro hf
      rcases tickFinish_jobInTable userId appName obs l _ hf with h1 | h1
      · simp_all
      · exact h1

theorem runTicks_jobInTable (userId appName : String) (obss : List TickObs)
    (l : LoopState) (h : l.jobInTable = false → l.st.isProcessComplete = true) :
    (runTicks userId appName obss l).1.jobInTable = false →
      (runTicks userId appName obss l).1.st.isProcessComplete = true := by
  induction obss generalizing l with
  | nil => exact h
  | cons obs rest ih =>
    exact ih (tick userId appName obs l).1 (tick_jobInTable userId appName obs l h)

theorem tick_of_inactive (userId appName : String) (obs : TickObs) (l : LoopState)
    (h : l.intervalActive = false) : tick userId appName obs l = (l, none) := by
  unfold tick
  simp [h]

theorem runTicks_of_inactive (userId appName : String) (obss : List TickObs)
    (l : LoopState) (h : l.intervalActive = false) :
    runTicks userId appName obss l = (l, []) := by
  induction obss with
  | nil => rfl
  | cons obs rest ih =>
    unfold runTicks
    rw [tick_of_inactive userId appName obs l h]
    simpa using ih

theorem jsToString36_ne_nil (n : Nat) : jsToString36 n ≠ [] := by
  rw [jsToString36]
  split
  · simp
  · simp

theorem generateProjectId_ne_empty (now : Nat) (randTail : String) :
    generateProjectId now randTail ≠ "" := by
  unfold generateProjectId
  intro h
  have hlen : (String.mk (jsToString36 now)).length + randTail.length = 0 := by
    rw [← String.length_append, h]
    rfl
  have h1 : (jsToString36 now).length + randTail.length = 0 := hlen
  have h2 : (jsToString36 now).length = 0 := by omega
  exact jsToString36_ne_nil now (List.length_eq_zero.mp h2)

theorem tickSignals_complete1 (st : MonitorState) (obs : TickObs)
    (hDir : obs.appDirStdout ≠ "")
    (hDirMiss : jsIncludes obs.appDirStdout "no app dir yet" = false)
    (hFiles : obs.filesStdout ≠ "")
    (hPkg : jsIncludes obs.filesStdout "package.json" = true)
    (hApp : jsIncludes obs.filesStdout "app" = true) :
    (tickSignals st obs).complete1 = true := by
  unfold tickSignals
  dsimp only
  simp [hDir, hDirMiss, hFiles, hPkg, hApp]

theorem tickFinish_complete (userId appName : String) (obs : TickObs) (l : LoopState)
    (sig : TickSignals) (hc : sig.complete1 = true) :
    ((tickFinish userId appName obs l sig).1).st.isProcessComplete = true ∧
    (tickFinish userId appName obs l sig).1.intervalActive = false ∧
    (tickFinish userId appName obs l sig).1.jobInTable = false ∧
    ∃ upd, (tickFinish userId appName obs l sig).2 = some upd ∧
      upd.status = (if obs.storeEnv.firestoreAvailable && obs.storeEnv.firestoreFails
        then none else some "completed") ∧
      upd.stage = (if obs.storeEnv.firestoreAvailable && obs.storeEnv.firestoreFails
        then none else some "completed") := by
  unfold tickFinish
  simp only [hc, if_true]
  refine ⟨trivial, trivial, trivial, ?_⟩
  unfold saveShopifyAppMetadata
  by_cases hA : obs.storeEnv.firestoreAvailable = true
  · by_cases hF : obs.storeEnv.firestoreFails = true
    · simp [hA, hF]
    · simp only [Bool.not_eq_true] at hF
      simp [hA, hF]
  · simp only [Bool.not_eq_true] at hA
    simp [hA]

theorem saveProjectTry_ok_projectId (env : SaveEnv) (userId : String) (pd : ProjectData)
    (r : SaveResult × List String) (h : saveProjectTry env userId pd = .ok r) :
    r.1.projectId = generateProjectId env.now1 env.rand1 := by
  unfold saveProjectTry at h
  dsimp only at h
  repeat' (split at h)
  all_goals first
    | (injection h with h2; subst h2; rfl)
    | injection h

theorem mapFind_extract_general (blocks : List CodeBlock)
    (files : List (String × String)) (name : String) :
    mapFind (blocks.foldl (fun fs b => mapSet fs (blockFilename fs b) (jsTrim b.body)) files)
        name =
      (lastValueFor name (assignedPairsAux files blocks)).or (mapFind files name) := by
  induction blocks generalizing files with
  | nil => simp [assignedPairsAux, lastValueFor]
  | cons b rest ih =>
    simp only [List.foldl_cons, assignedPairsAux]
    rw [ih]
    cases hL : lastValueFor name
        (assignedPairsAux (mapSet files (blockFilename files b) (jsTrim b.body)) rest) with
    | some r => simp [lastValueFor, hL]
    | none =>
      simp only [lastValueFor, hL, Option.none_or]
      rw [mapFind_mapSet]
      rcases eq_or_ne (blockFilename files b) name with hn | hn
      · simp [hn]
      · simp [hn, Ne.symm hn]

theorem blockFilename_cases (files : List (String × String)) (b : CodeBlock) :
    (blockFilename files b = jsTrim (b.nameComment.getD "") ∧
      jsTrim (b.nameComment.getD "") ≠ "") ∨
    blockFilename files b ∈
      (["server.js", "package.json", "index.html", "styles.css"] : List String) ∨
    blockFilename files b = "file_" ++ toString files.length ++ ".js" := by
  unfold blockFilename
  cases hnc : b.nameComment with
  | some f =>
    dsimp only
    by_cases hf : jsTrim f = ""
    · simp only [hf]
      unfold inferFilename
      repeat' split
      all_goals simp_all
    · simp [hf]
  | none =>
    dsimp only
    have hz : jsTrim "" = "" := rfl
    simp only [Option.getD_none, hz]
    unfold inferFilename
    repeat' split
    all_goals simp_all

theorem assignedPairsAux_length (blocks : List CodeBlock) :
    ∀ files, (assignedPairsAux files blocks).length = blocks.length := by
  induction blocks with
  | nil => intro files; rfl
  | cons b rest ih =>
    intro files
    simp [assignedPairsAux, ih]

/-! ## Claim theorems -/

/-- C1 (corrected, counterexample): a poll tick whose filesystem probe
finds the project directory with `package.json` and an `app` entry, but
whose Firestore metadata write rejects, emits an update that carries
neither `status` nor `stage` — the job record is not marked completed,
contradicting the claim's unconditional wording. -/
theorem filesystem_probe_counterexample :
    markerObsSaveFails.appDirStdout ≠ "" ∧
    jsIncludes markerObsSaveFails.appDirStdout "no app dir yet" = false ∧
    markerObsSaveFails.filesStdout ≠ "" ∧
    jsIncludes markerObsSaveFails.filesStdout "package.json" = true ∧
    jsIncludes markerObsSaveFails.filesStdout "app" = true ∧
    ((tick "user_1" "demo" markerObsSaveFails (initialLoopState "demo")).2.map
      (fun upd => (upd.status, upd.stage))) = some (none, none) := by
  decide

/-- C1 (amended): on every live poll tick whose filesystem probe finds
the expected project directory containing `package.json` and an `app`
entry, the monitor marks the process complete, stops the poll loop and
releases the job handle regardless of any log-based signal; the emitted
update sets `stage = completed` and `status = completed` provided the
app-metadata save does not throw (Firestore unconfigured or its write
succeeding), and carries neither field when that save rejects. -/
theorem filesystem_probe_completion (userId appName : String) (obs : TickObs)
    (l : LoopState) (hAct : l.intervalActive = true) (hTab : l.jobInTable = true)
    (hNc : l.st.isProcessComplete = false) (hDir : obs.appDirStdout ≠ "")
    (hDirMiss : jsIncludes obs.appDirStdout "no app dir yet" = false)
    (hFiles : obs.filesStdout ≠ "")
    (hPkg : jsIncludes obs.filesStdout "package.json" = true)
    (hApp : jsIncludes obs.filesStdout "app" = true) :
    ((tick userId appName obs l).1).st.isProcessComplete = true ∧
    (tick userId appName obs l).1.intervalActive = false ∧
    (tick userId appName obs l).1.jobInTable = false ∧
    ∃ upd, (tick userId appName obs l).2 = some upd ∧
      upd.status = (if obs.storeEnv.firestoreAvailable && obs.storeEnv.firestoreFails
        then none else some "completed") ∧
      upd.stage = (if obs.storeEnv.firestoreAvailable && obs.storeEnv.firestoreFails
        then none else some "completed") := by
  have ht : tick userId appName obs l = tickFinish userId appName obs l (tickSignals l.st obs) := by
    unfold tick
    simp [hAct, hTab, hNc]
  rw [ht]
  exact tickFinish_complete userId appName obs l _
    (tickSignals_complete1 l.st obs hDir hDirMiss hFiles hPkg hApp)

/-- C1 witness: the completing tick at a concrete observation with the
metadata save succeeding (Firestore unconfigured). -/
theorem filesystem_probe_completion_witness :
    ((tick "user_1" "demo" markerObs (initialLoopState "demo")).1).st.isProcessComplete = true ∧
    (tick "user_1" "demo" markerObs (initialLoopState "demo")).1.intervalActive = false ∧
    (tick "user_1" "demo" markerObs (initialLoopState "demo")).1.jobInTable = false ∧
    ∃ upd, (tick "user_1" "demo" markerObs (initialLoopState "demo")).2 = some upd ∧
      upd.status = (if markerObs.storeEnv.firestoreAvailable && markerObs.storeEnv.firestoreFails
        then none else some "completed") ∧
      upd.stage = (if markerObs.storeEnv.firestoreAvailable && markerObs.storeEnv.firestoreFails
        then none else some "completed") :=
  filesystem_probe_completion "user_1" "demo" markerObs (initialLoopState "demo")
    rfl rfl rfl (by decide) (by decide) (by decide) (by decide) (by decide)

/-- C2: a monitor run that never observes completion markers still has
the job registered when the 25-minute ceiling fires; the timeout then
emits exactly the `failed`/`error` update, clears the poll interval,
drops the job from the active table, and every later tick sequence
runs no update at all.  The ceiling constant is 25 minutes. -/
theorem ceiling_timeout_forces_failure (userId appName : String) (obss : List TickObs)
    (h : ((runTicks userId appName obss (initialLoopState appName)).1).st.isProcessComplete
        = false) :
    (timeoutFire ((runTicks userId appName obss (initialLoopState appName)).1)).2 =
      some ceilingFailureUpdate ∧
    (timeoutFire ((runTicks userId appName obss (initialLoopState appName)).1)).1.intervalActive
      = false ∧
    (timeoutFire ((runTicks userId appName obss (initialLoopState appName)).1)).1.jobInTable
      = false ∧
    (∀ obss2, runTicks userId appName obss2
        ((timeoutFire ((runTicks userId appName obss (initialLoopState appName)).1)).1) =
      (((timeoutFire ((runTicks userId appName obss (initialLoopState appName)).1)).1), [])) ∧
    ceilingMillis = 25 * 60 * 1000 := by
  have hj : ((runTicks userId appName obss (initialLoopState appName)).1).jobInTable = true := by
    by_contra hb
    have hb' : ((runTicks userId appName obss (initialLoopState appName)).1).jobInTable
        = false := by
      simpa using hb
    have hc := runTicks_jobInTable userId appName obss (initialLoopState appName)
      (fun hf => by simp [initialLoopState] at hf) hb'
    rw [h] at hc
    exact absurd hc (by simp)
  refine ⟨?_, ?_, ?_, ?_, rfl⟩
  · unfold timeoutFire
    simp [hj, h, ceilingFailureUpdate]
  · unfold timeoutFire
    simp [hj, h]
  · unfold timeoutFire
    simp [hj, h]
  · intro obss2
    apply runTicks_of_inactive
    unfold timeoutFire
    simp [hj, h]

/-- C2 witness: the empty tick trace at concrete job parameters. -/
theorem ceiling_timeout_forces_failure_witness :
    (timeoutFire ((runTicks "user_1" "demo" [] (initialLoopState "demo")).1)).2 =
      some ceilingFailureUpdate :=
  (ceiling_timeout_forces_failure "user_1" "demo" [] rfl).1

/-- C3: with the durable backend unavailable or failing, `create`
stores the record in the in-memory map and reports success, `update`
shallow-merges over it without any escaping exception, and `get`
returns the merged record — the round trip runs entirely on the
in-memory fallback. -/
theorem jobstore_fallback_roundtrip (env : StoreEnv) (st : StoreState)
    (userId appName jobId now : String) (upd : JobUpdates) (now2 : String)
    (h : env.firestoreAvailable = false ∨ env.firestoreFails = true) :
    (createAppCreationJob env st userId appName jobId now).2 =
      .ok { jobId := jobId, status := "running" } ∧
    (updateAppCreationJob env (createAppCreationJob env st userId appName jobId now).1
        jobId upd now2).2 = .ok () ∧
    getAppCreationJob env
        (updateAppCreationJob env (createAppCreationJob env st userId appName jobId now).1
          jobId upd now2).1 jobId =
      some (applyUpdates (initialJobRecord jobId userId appName now) upd now2) := by
  have hcreate : (createAppCreationJob env st userId appName jobId now).1 =
      { st with inMemoryJobs :=
          mapSet st.inMemoryJobs jobId (initialJobRecord jobId userId appName now) } := by
    unfold createAppCreationJob
    rcases h with h | h <;> simp [h]
  have hcr2 : (createAppCreationJob env st userId appName jobId now).2 =
      .ok { jobId := jobId, status := "running" } := by
    unfold createAppCreationJob
    rcases h with h | h <;> simp [h]
  refine ⟨hcr2, ?_, ?_⟩
  · unfold updateAppCreationJob
    rw [hcreate]
    simp [mapFind_mapSet]
  · unfold updateAppCreationJob getAppCreationJob
    rw [hcreate]
    simp [mapFind_mapSet]

/-- C3 witness: the round trip at concrete job data with no durable
backend configured. -/
theorem jobstore_fallback_roundtrip_witness :
    getAppCreationJob memOnlyEnv
        (updateAppCreationJob memOnlyEnv
          (createAppCreationJob memOnlyEnv emptyStore "alice" "Demo App" "job_1" "t0").1
          "job_1" demoUpdates "t1").1 "job_1" =
      some (applyUpdates (initialJobRecord "job_1" "alice" "Demo App" "t0") demoUpdates "t1") :=
  (jobstore_fallback_roundtrip memOnlyEnv emptyStore "alice" "Demo App" "job_1" "t0"
    demoUpdates "t1" (Or.inl rfl)).2.2

/-- C4 (corrected, counterexample): the single space `" "` is a
non-empty name made only of allow-list characters, yet the route
rejects it as a missing name and stores nothing; conversely `"a\tb"`
contains a tab — outside the claim's `[A-Za-z0-9 -]` — yet the regex
class `\s` accepts it and a job is started. -/
theorem appname_validation_counterexample :
    (" " ≠ "") ∧ (" ".toList.all specAllowListChar = true) ∧
    (createShopifyAppRoute memOnlyEnv emptyStore (some " ") "alice" "job_1" "t0").2 =
      .validationError 400 "App name is required" "Please provide a valid app name" ∧
    (createShopifyAppRoute memOnlyEnv emptyStore (some " ") "alice" "job_1" "t0").1 =
      emptyStore ∧
    ("a\tb".toList.all specAllowListChar = false) ∧
    (createShopifyAppRoute memOnlyEnv emptyStore (some "a\tb") "alice" "job_1" "t0").2 =
      .started "job_1" "Shopify app creation started" "5-15 minutes" := by
  decide

/-- C4 (amended): the job-creation endpoint starts a job (stored under
the trimmed name) exactly when the trimmed `appName` is non-empty and
every character is a letter, digit, JavaScript whitespace (the `\s`
class), or dash; when the trimmed name is empty or contains any other
character it answers a 400 validation error and leaves the store
unchanged. -/
theorem appname_validation (env : StoreEnv) (st : StoreState) (s userId jobId now : String)
    (hfresh : mapFind st.inMemoryJobs jobId = none) :
    (jsTrim s ≠ "" ∧ testValidAppName (jsTrim s) = true →
      (createShopifyAppRoute env st (some s) userId jobId now).2 =
        .started jobId "Shopify app creation started" "5-15 minutes" ∧
      getAppCreationJob env (createShopifyAppRoute env st (some s) userId jobId now).1 jobId =
        some (initialJobRecord jobId userId (jsTrim s) now)) ∧
    ((jsTrim s = "" ∨ testValidAppName (jsTrim s) = false) →
      (createShopifyAppRoute env st (some s) userId jobId now).1 = st ∧
      ∃ e m, (createShopifyAppRoute env st (some s) userId jobId now).2 =
        .validationError 400 e m) := by
  constructor
  · rintro ⟨h1, h2⟩
    have hs0 : ¬s = "" := by
      rintro rfl
      exact h1 rfl
    unfold createShopifyAppRoute
    dsimp only
    rw [if_neg (by simp [hs0, h1]), if_neg (by simp [h2])]
    refine ⟨rfl, ?_⟩
    unfold createAppCreationJob getAppCreationJob
    by_cases hA : env.firestoreAvailable = true
    · by_cases hF : env.firestoreFails = true
      · simp [hA, hF, mapFind_mapSet]
      · simp only [Bool.not_eq_true] at hF
        simp [hA, hF, mapFind_mapSet, hfresh]
    · simp only [Bool.not_eq_true] at hA
      simp [hA, mapFind_mapSet]
  · intro hrej
    unfold createShopifyAppRoute
    dsimp only
    by_cases ht : jsTrim s = ""
    · rw [if_pos (by simp [ht])]
      exact ⟨rfl, _, _, rfl⟩
    · have hs0 : ¬s = "" := by
        rintro rfl
        exact ht rfl
      have hr : testValidAppName (jsTrim s) = false := by
        rcases hrej with hr | hr
        · exact absurd hr ht
        · exact hr
      rw [if_neg (by simp [hs0, ht]), if_pos (by simp [hr])]
      exact ⟨rfl, _, _, rfl⟩

/-- C4 witness: a valid concrete name starts a job. -/
theorem appname_validation_witness :
    (createShopifyAppRoute memOnlyEnv emptyStore (some "My App") "alice" "job_1" "t0").2 =
      .started "job_1" "Shopify app creation started" "5-15 minutes" :=
  ((appname_validation memOnlyEnv emptyStore "My App" "alice" "job_1" "t0" rfl).1
    ⟨by decide, by decide⟩).1

/-- C5: once the monitor's `authUrl` holds a URL, a poll tick never
changes it — every later tick keeps the same URL (the ambiguous-stall
fallback only assigns the generic portal URL while `authUrl` is still
null), and any emitted update either omits `authUrl` or carries the
same URL, never a different one. -/
theorem authUrl_first_found_wins (userId appName : String) (obs : TickObs)
    (l : LoopState) (u : String) (h : l.st.authUrl = some u) :
    ((tick userId appName obs l).1).st.authUrl = some u ∧
    ∀ upd, (tick userId appName obs l).2 = some upd →
      upd.authUrl = none ∨ upd.authUrl = some (some u) :=
  ⟨tick_authUrl_stable userId appName obs l u h,
    tick_upd_authUrl userId appName obs l u h⟩

/-- C5 witness: a quiet stall tick on a monitor that already holds a
URL keeps that URL. -/
theorem authUrl_first_found_wins_witness :
    ((tick "user_1" "demo" quietObs authSetLoop).1).st.authUrl =
      some "https://partners.shopify.com/xyz" ∧
    ∀ upd, (tick "user_1" "demo" quietObs authSetLoop).2 = some upd →
      upd.authUrl = none ∨
        upd.authUrl = some (some "https://partners.shopify.com/xyz") :=
  authUrl_first_found_wins "user_1" "demo" quietObs authSetLoop
    "https://partners.shopify.com/xyz" rfl

/-- C6: on the scenario text, the extractor returns exactly the partner
URL and the stage classifier answers `waiting_auth`. -/
theorem extractor_scenario :
    extractAuthUrl
        "Please visit the following URL to authenticate: https://partners.shopify.com/abc123" =
      some "https://partners.shopify.com/abc123" ∧
    determineStage
        "Please visit the following URL to authenticate: https://partners.shopify.com/abc123" =
      "waiting_auth" := by
  decide

/-- C7 (corrected, counterexample): a non-owner querying an existing
job receives the 403 access-denied body while querying a nonexistent
job receives the 404 not-found body — the two responses differ, so
existence versus ownership is leaked, contrary to the claim's
indistinguishability clause. -/
theorem status_route_counterexample :
    appCreationStatusRoute memOnlyEnv ownedJobStore "job_1" "bob" =
      .httpError 403 "Access denied" "You do not have access to this job" ∧
    appCreationStatusRoute memOnlyEnv ownedJobStore "job_404" "bob" =
      .httpError 404 "Job not found" "The requested job does not exist" ∧
    appCreationStatusRoute memOnlyEnv ownedJobStore "job_1" "bob" ≠
      appCreationStatusRoute memOnlyEnv ownedJobStore "job_404" "bob" := by
  decide

/-- C7 (amended): the status endpoint answers 404 `Job not found` when
no record exists and 403 `Access denied` when the record's owner is not
the requester; the two error responses are distinct, so a non-owner can
distinguish an existing job from a missing one. -/
theorem status_route_behavior (env : StoreEnv) (st : StoreState) (jobId uid : String) :
    (getAppCreationJob env st jobId = none →
      appCreationStatusRoute env st jobId uid =
        .httpError 404 "Job not found" "The requested job does not exist") ∧
    (∀ r, getAppCreationJob env st jobId = some r → r.userId ≠ uid →
      appCreationStatusRoute env st jobId uid =
        .httpError 403 "Access denied" "You do not have access to this job") ∧
    (StatusResponse.httpError 404 "Job not found" "The requested job does not exist" ≠
      StatusResponse.httpError 403 "Access denied" "You do not have access to this job") := by
  refine ⟨?_, ?_, by decide⟩
  · intro h
    unfold appCreationStatusRoute
    rw [h]
  · intro r h hne
    unfold appCreationStatusRoute
    rw [h]
    dsimp only
    rw [if_pos (by simpa using hne)]

/-- C7 witness: concrete denial for a non-owner on an existing job. -/
theorem status_route_behavior_witness :
    appCreationStatusRoute memOnlyEnv ownedJobStore "job_1" "bob" =
      .httpError 403 "Access denied" "You do not have access to this job" :=
  (status_route_behavior memOnlyEnv ownedJobStore "job_1" "bob").2.1
    (initialJobRecord "job_1" "alice" "Demo App" "t0") (by decide) (by decide)

/-- C8: a poll tick only ever appends to the output buffer (the old
buffer is a prefix of the new one, so its length never decreases), and
the new-line collector keeps exactly the non-blank trimmed lines whose
first-50-character prefix is not contained in any line already
buffered — duplicates by line-prefix match are suppressed. -/
theorem output_dedup_append_only (userId appName : String) (obs : TickObs)
    (l : LoopState) (B : List String) (log : String) :
    l.st.outputBuffer <+: ((tick userId appName obs l).1).st.outputBuffer ∧
    l.st.outputBuffer.length ≤ ((tick userId appName obs l).1).st.outputBuffer.length ∧
    computeNewLines B log = ((jsSplitNl log).map jsTrim).filter
      (fun t => t ≠ "" && !(B.any (fun e => jsIncludes e (jsTake50 t)))) :=
  ⟨tick_buffer_extends userId appName obs l,
    (tick_buffer_extends userId appName obs l).length_le,
    computeNewLines_eq B log⟩

/-- C9: `saveProject` always returns a non-empty project id; with no
storage bucket configured it returns the fresh id with minimal metadata
and persists nothing, and when every storage write rejects the catch
path again yields minimal metadata with nothing persisted — no
exception escapes. -/
theorem saveProject_props (env : SaveEnv) (userId : String) (pd : ProjectData) :
    (saveProject env userId pd).1.projectId ≠ "" ∧
    (env.bucketConfigured = false →
      saveProject env userId pd =
        ({ projectId := generateProjectId env.now1 env.rand1,
           metadata := { id := generateProjectId env.now1 env.rand1 } }, [])) ∧
    ((∀ p, env.writeOk p = false) →
      (saveProject env userId pd).1.metadata =
        { id := (saveProject env userId pd).1.projectId } ∧
      (saveProject env userId pd).2 = []) := by
  refine ⟨?_, ?_, ?_⟩
  · unfold saveProject
    cases hres : saveProjectTry env userId pd with
    | ok r =>
      simpa [saveProjectTry_ok_projectId env userId pd r hres] using
        generateProjectId_ne_empty env.now1 env.rand1
    | error ps =>
      simpa using generateProjectId_ne_empty env.now2 env.rand2
  · intro hb
    unfold saveProject saveProjectTry
    simp [hb]
  · intro hAll
    by_cases hb : env.bucketConfigured = true
    · have hw : env.writeOk ("users/" ++ userId ++ "/projects/" ++
          generateProjectId env.now1 env.rand1 ++ "/project.json") = false := hAll _
      unfold saveProject saveProjectTry
      simp [hb, hw]
    · simp only [Bool.not_eq_true] at hb
      unfold saveProject saveProjectTry
      simp [hb]

/-- C9 witness: concrete calls with the bucket missing and with every
write rejecting. -/
theorem saveProject_props_witness :
    (saveProject noBucketEnv "user_1" demoProjectData).1.projectId ≠ "" ∧
    saveProject noBucketEnv "user_1" demoProjectData =
      ({ projectId := generateProjectId noBucketEnv.now1 noBucketEnv.rand1,
         metadata := { id := generateProjectId noBucketEnv.now1 noBucketEnv.rand1 } }, []) ∧
    (saveProject failingBucketEnv "user_1" demoProjectData).2 = [] :=
  ⟨(saveProject_props noBucketEnv "user_1" demoProjectData).1,
    (saveProject_props noBucketEnv "user_1" demoProjectData).2.1 rfl,
    ((saveProject_props failingBucketEnv "user_1" demoProjectData).2.2 (fun _ => rfl)).2⟩

/-- C10: every fenced block is assigned a filename — the trimmed
explicit comment when non-blank, a content-sniffed name, or the
fallback `file_<n>.js` with `n` the current key count — the assignment
trace has one name per block, and looking a name up in the returned
mapping yields the content of the last block assigned that name
(earlier colliding blocks are overwritten). -/
theorem extractCodeBlocks_names_last_wins (blocks : List CodeBlock) (name : String)
    (files : List (String × String)) (b : CodeBlock) :
    (assignedPairs blocks).length = blocks.length ∧
    ((blockFilename files b = jsTrim (b.nameComment.getD "") ∧
        jsTrim (b.nameComment.getD "") ≠ "") ∨
      blockFilename files b ∈
        (["server.js", "package.json", "index.html", "styles.css"] : List String) ∨
      blockFilename files b = "file_" ++ toString files.length ++ ".js") ∧
    mapFind (extractCodeBlocks blocks) name = lastValueFor name (assignedPairs blocks) := by
  refine ⟨assignedPairsAux_length blocks [], blockFilename_cases files b, ?_⟩
  unfold extractCodeBlocks assignedPairs
  rw [mapFind_extract_general]
  simp [mapFind]
